import Mathlib

/-!
Verification development for the below-the-fold news aggregation service.

The definitions below are a shallow embedding of the response-normalization
pipeline of `PerplexityAgent.get_top_news` (src/agents/perplexity_agent.py),
the article model and validators of `NewsArticle` (src/models/news.py), and
the per-category caching layer (`BaseNewsAgent`, `Newsroom` in
src/agents/news_agents.py together with the `/news/all` handler in
src/main.py).  Python values appearing in the pipeline are modelled as
follows: JSON documents as the inductive `Json` (numbers as exact rationals),
`datetime` values as the component record `PyDatetime` with an optional
timezone offset, exceptions as `Except` results, and wall-clock instants in
the caching layer as integer seconds.
-/

namespace BTF

set_option maxRecDepth 40000

/-- Ten to an integer power, as a rational. -/
def ratPow10 (e : Int) : Rat :=
  if 0 ≤ e then (10 : Rat) ^ e.toNat else 1 / (10 : Rat) ^ (-e).toNat

/-- An exact decimal number `mant * 10 ^ exp10`, the value domain of JSON
number literals.  (Python parses these to int/float; every numeric literal
the pipeline handles is decimal, so the exact-decimal model is faithful up
to float rounding, on which no claim depends.) -/
structure JNum where
  mant : Int
  exp10 : Int
deriving Repr, DecidableEq

/-- The rational value of an exact decimal. -/
def JNum.toRat (x : JNum) : Rat := (x.mant : Rat) * ratPow10 x.exp10

/-- JSON values as produced by Python's `json.loads`. -/
inductive Json where
  | null : Json
  | bool : Bool → Json
  | num  : JNum → Json
  | str  : String → Json
  | arr  : List Json → Json
  | obj  : List (String × Json) → Json
deriving Repr

/-- JSON whitespace accepted between tokens by `json.loads`. -/
def isJsonWs (c : Char) : Bool :=
  c = ' ' || c = '\t' || c = '\n' || c = '\r'

/-- Drop leading JSON whitespace. -/
def skipWs : List Char → List Char
  | [] => []
  | c :: cs => if isJsonWs c then skipWs cs else c :: cs

/-- Value of a hexadecimal digit. -/
def hexVal (c : Char) : Option Nat :=
  if 48 ≤ c.toNat ∧ c.toNat ≤ 57 then some (c.toNat - 48)
  else if 97 ≤ c.toNat ∧ c.toNat ≤ 102 then some (c.toNat - 87)
  else if 65 ≤ c.toNat ∧ c.toNat ≤ 70 then some (c.toNat - 55)
  else none

/-- Body of a JSON string literal, after the opening quote; returns the
decoded string and the remaining input.  Escapes are decoded as in the JSON
grammar (`\uXXXX` yields the code point directly; surrogate-pair joining is
outside the model and unused by the repository's payloads). -/
def strBody (acc : List Char) : List Char → Option (String × List Char)
  | [] => none
  | '"' :: rest => some (String.mk acc.reverse, rest)
  | '\\' :: '"' :: r => strBody ('"' :: acc) r
  | '\\' :: '\\' :: r => strBody ('\\' :: acc) r
  | '\\' :: '/' :: r => strBody ('/' :: acc) r
  | '\\' :: 'b' :: r => strBody ('\x08' :: acc) r
  | '\\' :: 'f' :: r => strBody ('\x0c' :: acc) r
  | '\\' :: 'n' :: r => strBody ('\n' :: acc) r
  | '\\' :: 'r' :: r => strBody ('\x0d' :: acc) r
  | '\\' :: 't' :: r => strBody ('\t' :: acc) r
  | '\\' :: 'u' :: a :: b :: c :: d :: r =>
    match hexVal a, hexVal b, hexVal c, hexVal d with
    | some x, some y, some z, some w =>
      strBody (Char.ofNat (((x * 16 + y) * 16 + z) * 16 + w) :: acc) r
    | _, _, _, _ => none
  | '\\' :: _ => none
  | c :: rest => if c.toNat < 32 then none else strBody (c :: acc) rest

/-- Take the maximal run of decimal digits off the front of the input. -/
def takeDigits : List Char → (List Char × List Char)
  | [] => ([], [])
  | c :: cs =>
    if c.isDigit then
      let p := takeDigits cs
      (c :: p.1, p.2)
    else ([], c :: cs)

/-- Decimal digits to a natural number. -/
def digitsToNat (ds : List Char) : Nat :=
  ds.foldl (fun n c => n * 10 + (c.toNat - 48)) 0

/-- Integer part of a JSON number: a lone `0`, or a nonzero digit followed
by more digits. -/
def parseIntDigits : List Char → Option (List Char × List Char)
  | [] => none
  | '0' :: cs => some (['0'], cs)
  | c :: cs =>
    if c.isDigit then
      let p := takeDigits cs
      some (c :: p.1, p.2)
    else none

/-- Optional fraction part of a JSON number (requires at least one digit
after the dot when the dot is present). -/
def parseFrac : List Char → Option (List Char × List Char)
  | '.' :: r =>
    match takeDigits r with
    | ([], _) => none
    | (ds, r2) => some (ds, r2)
  | cs => some ([], cs)

/-- Optional exponent part of a JSON number. -/
def parseExp : List Char → Option (Int × List Char)
  | [] => some (0, [])
  | c :: r =>
    if c = 'e' ∨ c = 'E' then
      let p : Bool × List Char :=
        match r with
        | '+' :: r2 => (false, r2)
        | '-' :: r2 => (true, r2)
        | _ => (false, r)
      match takeDigits p.2 with
      | ([], _) => none
      | (ds, r2) =>
        some (if p.1 then -(digitsToNat ds : Int) else (digitsToNat ds : Int), r2)
    else some (0, c :: r)

/-- A JSON number, following the grammar
`-?(0|[1-9][0-9]*)(.[0-9]+)?([eE][+-]?[0-9]+)?`. -/
def parseNum (cs : List Char) : Option (JNum × List Char) := do
  let p : Bool × List Char :=
    match cs with
    | '-' :: r => (true, r)
    | _ => (false, cs)
  let (ids, cs2) ← parseIntDigits p.2
  let (fds, cs3) ← parseFrac cs2
  let (e, cs4) ← parseExp cs3
  let m : Nat := digitsToNat (ids ++ fds)
  some (⟨if p.1 then -(m : Int) else (m : Int), e - fds.length⟩, cs4)

/-- Comma-separated JSON array items, up to and including the closing
bracket; `pv` parses one value. -/
def parseItemsAux (pv : List Char → Option (Json × List Char)) :
    Nat → List Char → Option (List Json × List Char)
  | 0, _ => none
  | fuel + 1, cs =>
    match pv cs with
    | none => none
    | some (v, r) =>
      match skipWs r with
      | ',' :: r2 =>
        match parseItemsAux pv fuel r2 with
        | some (vs, r3) => some (v :: vs, r3)
        | none => none
      | ']' :: r2 => some ([v], r2)
      | _ => none

/-- Comma-separated JSON object members, up to and including the closing
brace; `pv` parses one value. -/
def parseMembersAux (pv : List Char → Option (Json × List Char)) :
    Nat → List Char → Option (List (String × Json) × List Char)
  | 0, _ => none
  | fuel + 1, cs =>
    match skipWs cs with
    | '"' :: rest =>
      match strBody [] rest with
      | none => none
      | some (k, r) =>
        match skipWs r with
        | ':' :: r2 =>
          match pv r2 with
          | none => none
          | some (v, r3) =>
            match skipWs r3 with
            | ',' :: r4 =>
              match parseMembersAux pv fuel r4 with
              | some (kvs, r5) => some ((k, v) :: kvs, r5)
              | none => none
            | '\x7d' :: r4 => some ([(k, v)], r4)
            | _ => none
        | _ => none
    | _ => none

/-- Fuel-indexed JSON value parser:  returns the value and the unconsumed
remainder of the input. -/
def parseVal : Nat → List Char → Option (Json × List Char)
  | 0, _ => none
  | fuel + 1, cs =>
    match skipWs cs with
    | 'n' :: 'u' :: 'l' :: 'l' :: rest => some (.null, rest)
    | 't' :: 'r' :: 'u' :: 'e' :: rest => some (.bool true, rest)
    | 'f' :: 'a' :: 'l' :: 's' :: 'e' :: rest => some (.bool false, rest)
    | '"' :: rest =>
      match strBody [] rest with
      | some (s, r) => some (.str s, r)
      | none => none
    | '[' :: rest =>
      match skipWs rest with
      | ']' :: r => some (.arr [], r)
      | cs2 =>
        match parseItemsAux (parseVal fuel) fuel cs2 with
        | some (items, r) => some (.arr items, r)
        | none => none
    | '\x7b' :: rest =>
      match skipWs rest with
      | '\x7d' :: r => some (.obj [], r)
      | cs2 =>
        match parseMembersAux (parseVal fuel) fuel cs2 with
        | some (kvs, r) => some (.obj kvs, r)
        | none => none
    | cs1 =>
      match parseNum cs1 with
      | some (q, r) => some (.num q, r)
      | none => none

/-- `json.loads`: parse a whole string as a single JSON document, allowing
surrounding whitespace and nothing else. -/
def jsonParse (s : String) : Option Json :=
  let cs := s.toList
  match parseVal (2 * cs.length + 2) cs with
  | some (v, rest) => if skipWs rest = [] then some v else none
  | none => none

/-- Index of the first `[` in the input, if any. -/
def firstOpenIdx : List Char → Option Nat
  | [] => none
  | c :: cs => if c = '[' then some 0 else (firstOpenIdx cs).map (· + 1)

/-- Index of the last `]` in the input, if any. -/
def lastCloseIdx : List Char → Option Nat
  | [] => none
  | c :: cs =>
    match lastCloseIdx cs with
    | some j => some (j + 1)
    | none => if c = ']' then some 0 else none

/-- The match of the greedy regex search `re.search(r'\[.*\]', content,
re.DOTALL)`: the span from the first `[` to the last `]`, when the first `[`
precedes the last `]`. -/
def extractSpan (cs : List Char) : Option (List Char) :=
  match firstOpenIdx cs, lastCloseIdx cs with
  | some i, some j => if i < j then some ((cs.drop i).take (j - i + 1)) else none
  | _, _ => none

/-- The parsing phase of `get_top_news` (perplexity_agent.py lines 112-130):
first try `json.loads` on the whole reply; only if that fails, search for the
greedy `[...]` span and try `json.loads` on it; fail when neither works. -/
def parsePhase (content : String) : Option Json :=
  match jsonParse content with
  | some v => some v
  | none =>
    match extractSpan content.toList with
    | some t => jsonParse (String.mk t)
    | none => none

/-! ## Datetime model

`datetime` values are modelled by their components plus an optional fixed
utc-offset in minutes (`none` = timezone-naive).  `fromisoformat` embeds the
subset of `datetime.fromisoformat` exercised by the repository:
`YYYY-MM-DD`, optionally followed by a one-character separator and
`HH:MM[:SS[.f{1,6}]][+HH:MM|-HH:MM|Z]`, with calendar and range validation. -/

/-- A Python `datetime`: components plus optional utc offset in minutes
(`tz = none` means timezone-naive). -/
structure PyDatetime where
  year : Nat
  month : Nat
  day : Nat
  hour : Nat
  minute : Nat
  second : Nat
  micro : Nat
  tz : Option Int
deriving Repr, DecidableEq

/-- Exactly two decimal digits. -/
def parse2 : List Char → Option (Nat × List Char)
  | a :: b :: r =>
    if a.isDigit && b.isDigit then some ((a.toNat - 48) * 10 + (b.toNat - 48), r)
    else none
  | _ => none

/-- Exactly four decimal digits. -/
def parse4 : List Char → Option (Nat × List Char)
  | a :: b :: c :: d :: r =>
    if a.isDigit && b.isDigit && c.isDigit && d.isDigit then
      some (digitsToNat [a, b, c, d], r)
    else none
  | _ => none

/-- Gregorian leap-year rule. -/
def isLeapYear (y : Nat) : Bool :=
  y % 4 == 0 && (y % 100 != 0 || y % 400 == 0)

/-- Days in a month, as validated by `datetime`. -/
def daysInMonth (y m : Nat) : Nat :=
  if m = 2 then (if isLeapYear y then 29 else 28)
  else if m = 4 ∨ m = 6 ∨ m = 9 ∨ m = 11 then 30
  else 31

/-- Fraction digits to microseconds (right-padded to six digits). -/
def fracToMicro (ds : List Char) : Nat :=
  digitsToNat ds * 10 ^ (6 - ds.length)

/-- Optional `:SS[.ffffff]` part of an ISO time. -/
def parseSecFrac : List Char → Option (Nat × Nat × List Char)
  | ':' :: r =>
    match parse2 r with
    | none => none
    | some (ss, r2) =>
      match r2 with
      | '.' :: r3 =>
        match takeDigits r3 with
        | ([], _) => none
        | (ds, r4) => if ds.length ≤ 6 then some (ss, fracToMicro ds, r4) else none
      | _ => some (ss, 0, r2)
  | cs => some (0, 0, cs)

/-- A `±HH:MM` utc-offset body (after the sign), in minutes. -/
def parseTzHM (cs : List Char) : Option (Int × List Char) := do
  let (hh, r1) ← parse2 cs
  match r1 with
  | ':' :: r2 => do
    let (mm, r3) ← parse2 r2
    if hh ≤ 23 ∧ mm ≤ 59 then some (((hh : Int) * 60 + mm, r3)) else none
  | _ => none

/-- Optional trailing utc offset of an ISO time. -/
def parseTz : List Char → Option (Option Int × List Char)
  | [] => some (none, [])
  | 'Z' :: r => some (some 0, r)
  | '+' :: r => (parseTzHM r).map (fun p => (some p.1, p.2))
  | '-' :: r => (parseTzHM r).map (fun p => (some (-p.1), p.2))
  | cs => some (none, cs)

/-- `datetime.fromisoformat` on the ISO-8601 subset described above;
`none` models the ValueError raised on any other string. -/
def fromisoformat (s : String) : Option PyDatetime := do
  let (y, r1) ← parse4 s.toList
  match r1 with
  | '-' :: r2 => do
    let (mo, r3) ← parse2 r2
    match r3 with
    | '-' :: r4 => do
      let (d, r5) ← parse2 r4
      if 1 ≤ y ∧ 1 ≤ mo ∧ mo ≤ 12 ∧ 1 ≤ d ∧ d ≤ daysInMonth y mo then
        match r5 with
        | [] => some ⟨y, mo, d, 0, 0, 0, 0, none⟩
        | _ :: r6 => do
          let (hh, r7) ← parse2 r6
          match r7 with
          | ':' :: r8 => do
            let (mi, r9) ← parse2 r8
            let (ss, us, r10) ← parseSecFrac r9
            let (tz, r11) ← parseTz r10
            if hh ≤ 23 ∧ mi ≤ 59 ∧ ss ≤ 59 ∧ r11 = [] then
              some ⟨y, mo, d, hh, mi, ss, us, tz⟩
            else none
          | _ => none
      else none
    | _ => none
  | _ => none

/-! ## Python value helpers -/

/-- Uncaught exception classes that can escape the per-article loop of
`get_top_news` (everything it catches locally is `ValueError`). -/
inductive PyFatal where
  | typeError
  | attributeError
deriving Repr, DecidableEq

/-- `str.lower()` (the payloads under study are ASCII). -/
def lowerStr (s : String) : String :=
  String.mk (s.toList.map Char.toLower)

/-- Python truthiness of a JSON-decoded value. -/
def jsonTruthy : Json → Bool
  | .null => false
  | .bool b => b
  | .num q => q.mant != 0
  | .str s => s != ""
  | .arr l => !l.isEmpty
  | .obj l => !l.isEmpty

/-- `dict.get`: value of the last binding of `k` (later duplicate keys in a
JSON object overwrite earlier ones in `json.loads`). -/
def jGet (kvs : List (String × Json)) (k : String) : Option Json :=
  List.lookup k kvs.reverse

/-- `dict.get` with a default. -/
def jGetD (kvs : List (String × Json)) (k : String) (d : Json) : Json :=
  (jGet kvs k).getD d

/-- `k in dict`. -/
def jMem (kvs : List (String × Json)) (k : String) : Bool :=
  (jGet kvs k).isSome

/-- Leading Python whitespace removed. -/
def stripLeft : List Char → List Char
  | [] => []
  | c :: cs => if c.isWhitespace then stripLeft cs else c :: cs

/-- `str.strip()`. -/
def stripPy (cs : List Char) : List Char :=
  ((stripLeft cs).reverse |> stripLeft).reverse

/-- `float(s)` for a string argument: optional sign, digits with an optional
dot (at least one digit overall), optional exponent, surrounded by optional
whitespace.  (`inf`/`nan` and digit-group underscores are outside the model;
no claim involves them.)  `none` models the ValueError on any other string. -/
def pyFloatParse (s : String) : Option JNum :=
  let cs := stripPy s.toList
  let p : Bool × List Char :=
    match cs with
    | '+' :: r => (false, r)
    | '-' :: r => (true, r)
    | _ => (false, cs)
  let i := takeDigits p.2
  let f : List Char × List Char :=
    match i.2 with
    | '.' :: rr => takeDigits rr
    | _ => ([], i.2)
  if i.1.isEmpty && f.1.isEmpty then none
  else
    match parseExp f.2 with
    | none => none
    | some (e, r3) =>
      if r3.isEmpty then
        let m : Nat := digitsToNat (i.1 ++ f.1)
        some ⟨if p.1 then -(m : Int) else (m : Int), e - f.1.length⟩
      else none

/-- Result of `float(v)` on a JSON-decoded value: numbers and booleans
convert, strings are parsed (ValueError on failure), and `None`, lists and
dicts raise TypeError — which the article loop does not catch. -/
inductive ScoreErr where
  | valueError
  | typeError
deriving Repr, DecidableEq

/-- `float(v)` on a JSON-decoded value. -/
def pyFloat : Json → Except ScoreErr JNum
  | .num q => .ok q
  | .bool b => .ok ⟨if b then 1 else 0, 0⟩
  | .str s =>
    match pyFloatParse s with
    | some q => .ok q
    | none => .error .valueError
  | _ => .error .typeError

/-! ## The NewsArticle model (src/models/news.py) -/

/-- A validated `NewsArticle` record. -/
structure NewsArticle where
  title : String
  summary : String
  source : String
  url : String
  published_at : PyDatetime
  category : Option String
  importance_score : Option JNum
  sentiment_score : Option JNum
  why_it_matters : Option String
deriving Repr, DecidableEq

/-- pydantic v1 `str`-field coercion: strings pass through, numbers and
booleans stringify (the exact rendering of numbers differs from CPython's
float repr; no claim depends on the rendered text), anything else is a
ValidationError. -/
def coerceStr : Json → Option String
  | .str s => some s
  | .bool b => some (if b then "True" else "False")
  | .num q => some (toString q.mant ++ "e" ++ toString q.exp10)
  | _ => none

/-- pydantic v1 `Optional[str]`-field coercion. -/
def coerceOptStr : Json → Option (Option String)
  | .null => some none
  | j => (coerceStr j).map some

/-- The known-outlet list of `NewsArticle.validate_source`. -/
def reputableSources : List String :=
  ["the verge", "techcrunch", "wired", "mit technology review",
   "new york times", "financial times", "nature", "science",
   "reuters", "bloomberg", "wall street journal", "washington post",
   "the guardian", "the economist", "fortune", "business insider",
   "cnbc", "techradar", "engadget", "venturebeat", "zdnet",
   "arstechnica", "the information", "protocol", "axios",
   "btw media"]

/-- Python's `needle in hay` substring test. -/
def containsSub (needle hay : List Char) : Bool :=
  hay.tails.any (fun t => needle.isPrefixOf t)

/-- Python's `v.startswith(p)`, via character lists. -/
def startsWithPy (v p : String) : Bool :=
  p.toList.isPrefixOf v.toList

/-- Whether some known outlet name occurs inside the lowercased source. -/
def sourceIsReputable (v : String) : Bool :=
  reputableSources.any (fun s => containsSub s.toList (lowerStr v).toList)

/-- `NewsArticle.validate_source`: empty source is a ValueError; a source
that fails the reputable-outlet check only logs a warning and is returned
unchanged (the code's debugging fallback). -/
def validate_source (v : String) : Option String :=
  if v = "" then none
  else if sourceIsReputable v then some v
  else some v

/-- `NewsArticle.validate_url`: empty, or lacking an `http://`/`https://`
scheme prefix, is a ValueError. -/
def validate_url (v : String) : Option String :=
  if v = "" then none
  else if startsWithPy v "http://" || startsWithPy v "https://" then some v
  else none

/-- `NewsArticle(...)` construction: pydantic coerces and validates the
fields in declaration order; `none` models the ValidationError (a
ValueError) that the article loop catches per element. -/
def mkNewsArticle (headline summary source url : Json)
    (published_at : PyDatetime) (category : Json)
    (importance sentiment : JNum) (why : Json) : Option NewsArticle := do
  let t ← coerceStr headline
  let sm ← coerceStr summary
  let sv ← coerceStr source
  let s ← validate_source sv
  let uv ← coerceStr url
  let u ← validate_url uv
  let c ← coerceOptStr category
  let w ← coerceOptStr why
  some ⟨t, sm, s, u, published_at, c, some importance, some sentiment, w⟩

/-! ## The per-element loop of get_top_news (perplexity_agent.py 136-202) -/

/-- The four keys an element must carry to survive the missing-field check. -/
def requiredKeys : List String :=
  ["headline", "summary", "source", "url"]

/-- Lines 159-171: publication-time handling.  `article.get` yields `None`
when absent; a falsy value (absent, `""`, `0`, `[]`, ...) falls through to
`datetime.now(timezone.utc)`; a truthy string is ISO-parsed with ValueError
falling back to now and a naive result assigned utc; a truthy non-string
reaches `datetime.fromisoformat` which raises an uncaught TypeError. -/
def computePublishedAt (v : Option Json) (now : PyDatetime) :
    Except PyFatal PyDatetime :=
  match v with
  | none => .ok now
  | some j =>
    if jsonTruthy j then
      match j with
      | .str s =>
        match fromisoformat s with
        | some d => .ok (if d.tz.isNone then { d with tz := some 0 } else d)
        | none => .ok now
      | _ => .error .typeError
    else .ok now

/-- Lines 159-189 for one element past the duplicate check: publication
time, the two `float(...)` coercions (string coercion failures are
ValueErrors caught by the loop, yielding a skip, modelled `ok none`;
TypeErrors escape), then `NewsArticle(...)` construction (ValidationError
is caught, yielding a skip). -/
def elemBuild (now : PyDatetime) (kvs : List (String × Json)) :
    Except PyFatal (Option NewsArticle) := do
  let pub ← computePublishedAt (jGet kvs "publication_time") now
  match pyFloat (jGetD kvs "importance_score" (.num ⟨5, -1⟩)) with
  | .error .typeError => .error .typeError
  | .error .valueError => .ok none
  | .ok imp =>
    match pyFloat (jGetD kvs "sentiment_score" (.num ⟨0, 0⟩)) with
    | .error .typeError => .error .typeError
    | .error .valueError => .ok none
    | .ok sen =>
      .ok (mkNewsArticle (jGetD kvs "headline" (.str "No Title"))
        (jGetD kvs "summary" (.str "No Summary"))
        (jGetD kvs "source" (.str ""))
        (jGetD kvs "url" (.str ""))
        pub (jGetD kvs "category" (.str "General")) imp sen
        (jGetD kvs "why_it_matters" (.str "Analysis not available")))

/-- Loop state: sources seen so far this pass, and the surviving articles in
encounter order. -/
structure LoopState where
  seen : List String
  out : List NewsArticle
deriving Repr, DecidableEq

/-- Lines 141-189 for one element: skip non-dicts; skip elements missing a
required key; `article.get('source','').lower()` (AttributeError on a
non-string source is uncaught); skip when the lowercased source was already
seen, else record it; then build. -/
def processElem (now : PyDatetime) (st : LoopState) (j : Json) :
    Except PyFatal LoopState :=
  match j with
  | .obj kvs =>
    if requiredKeys.any (fun k => !jMem kvs k) then .ok st
    else
      match jGetD kvs "source" (.str "") with
      | .str s =>
        let key := lowerStr s
        if st.seen.contains key then .ok st
        else
          match elemBuild now kvs with
          | .error e => .error e
          | .ok none => .ok ⟨st.seen ++ [key], st.out⟩
          | .ok (some a) => .ok ⟨st.seen ++ [key], st.out ++ [a]⟩
      | _ => .error .attributeError
  | _ => .ok st

/-- The whole element loop over a parsed array. -/
def processArticles (now : PyDatetime) (l : List Json) :
    Except PyFatal (List NewsArticle) :=
  (l.foldlM (processElem now) ⟨[], []⟩).map LoopState.out

/-- Failure taxonomy of one `get_top_news` normalization pass. -/
inductive FetchErr where
  | malformedPayload
  | notAnArray
  | emptyResult
  | fatal (e : PyFatal)
deriving Repr, DecidableEq

/-- The normalization pass of `get_top_news` on a raw reply body: the
two-phase parse, the `isinstance(news_data, list)` check, the element loop,
and the final `if not articles: raise`. -/
def normalize (content : String) (now : PyDatetime) :
    Except FetchErr (List NewsArticle) :=
  match parsePhase content with
  | none => .error .malformedPayload
  | some (.arr l) =>
    match processArticles now l with
    | .error e => .error (.fatal e)
    | .ok arts => if arts.isEmpty then .error .emptyResult else .ok arts
  | some _ => .error .notAnArray

/-! ## The caching layer (news_agents.py, main.py)

Wall-clock instants are integer seconds; `timedelta(minutes=5)` is 300.
The remote fetch-and-normalize collaborator of each category is passed in
as an `Except` result; an `error` is any exception reaching the
`except Exception` handler of that category's `fetch_news`. -/

/-- The four newsroom categories. -/
inductive Category where
  | breaking
  | top
  | funding
  | research
deriving Repr, DecidableEq

/-- Per-agent cache state (`BaseNewsAgent.last_update`,
`BaseNewsAgent.cached_articles`). -/
structure AgentState where
  last_update : Option Int
  cached_articles : List NewsArticle
deriving Repr, DecidableEq

/-- `timedelta(minutes=5)` in seconds. -/
def freshnessWindow : Int := 300

/-- `BaseNewsAgent.get_cached_articles`: the stored batch while strictly
inside the freshness window, else an empty list. -/
def get_cached_articles (a : AgentState) (now : Int) : List NewsArticle :=
  match a.last_update with
  | some t => if now - t < freshnessWindow then a.cached_articles else []
  | none => []

/-- A category agent's `fetch_news`: on success install the batch and the
timestamp and return the batch; on any exception return `[]` with the state
untouched. -/
def fetch_news (a : AgentState) (now : Int)
    (r : Except Unit (List NewsArticle)) : List NewsArticle × AgentState :=
  match r with
  | .ok arts => (arts, ⟨some now, arts⟩)
  | .error _ => ([], a)

/-- `Newsroom` state: one agent per category plus the sweep timestamp. -/
structure NewsroomState where
  agents : Category → AgentState
  last_full_update : Option Int

/-- `Newsroom.needs_update`: true before any sweep, or when strictly more
than the freshness window has elapsed since the last sweep. -/
def needs_update (st : NewsroomState) (now : Int) : Bool :=
  match st.last_full_update with
  | none => true
  | some t => now - t > freshnessWindow

/-- `Newsroom.update_all`: run every category's `fetch_news` (each exactly
once — the third component counts the remote invocations per category) and
record the sweep timestamp. -/
def update_all (st : NewsroomState) (now : Int)
    (rs : Category → Except Unit (List NewsArticle)) :
    (Category → List NewsArticle) × NewsroomState × (Category → Nat) :=
  ((fun c => (fetch_news (st.agents c) now (rs c)).1),
   ⟨fun c => (fetch_news (st.agents c) now (rs c)).2, some now⟩,
   fun _ => 1)

/-- `Newsroom.get_cached_news`: cached-only read of every category. -/
def get_cached_news (st : NewsroomState) (now : Int) :
    Category → List NewsArticle :=
  fun c => get_cached_articles (st.agents c) now

/-- The `/news/all` handler: refresh everything when `needs_update`, else
serve from the per-agent caches with no remote invocation. -/
def get_all_news (st : NewsroomState) (now : Int)
    (rs : Category → Except Unit (List NewsArticle)) :
    (Category → List NewsArticle) × NewsroomState × (Category → Nat) :=
  if needs_update st now then update_all st now rs
  else (get_cached_news st now, st, fun _ => 0)

/-! ## Concrete scenario data and statement helpers -/

/-- A fixed timezone-aware instant standing in for `datetime.now(timezone.utc)`
in concrete scenarios. -/
def now0 : PyDatetime := ⟨2025, 1, 1, 0, 0, 0, 0, some 0⟩

/-- A sample article record for concrete cache scenarios. -/
def sampleArticle : NewsArticle :=
  ⟨"A", "s", "X", "http://x", now0, some "General",
   some ⟨5, -1⟩, some ⟨0, 0⟩, some "w"⟩

/-- The dedup key and article one element contributes when it passes every
per-element validation (`none` when it would be skipped or fatal); used to
state which elements of a payload survive. -/
def elemOk (now : PyDatetime) (e : Json) : Option (String × NewsArticle) :=
  match e with
  | .obj kvs =>
    if requiredKeys.any (fun k => !jMem kvs k) then none
    else
      match jGetD kvs "source" (.str "") with
      | .str s =>
        match elemBuild now kvs with
        | .ok (some a) => some (lowerStr s, a)
        | _ => none
      | _ => none
  | _ => none

/-- Modelled from the spec: the "normalized source key (lowercased,
trimmed)" of spec section 4.1 step 4 — for comparison against the code's
key, which lowercases but does not trim. -/
def specNormalizedSourceKey (s : String) : String :=
  lowerStr (String.mk (stripPy s.toList))

/-- The field invariants that do hold of every article in a returned batch:
non-empty source, non-empty scheme-prefixed url, timezone-aware timestamp,
and present scores.  (Title and summary may be empty and scores are not
clamped; see the C8 counterexample.) -/
def articleInv (a : NewsArticle) : Prop :=
  a.source ≠ "" ∧ a.url ≠ ""
  ∧ (startsWithPy a.url "http://" || startsWithPy a.url "https://") = true
  ∧ a.published_at.tz.isSome = true
  ∧ a.importance_score.isSome = true ∧ a.sentiment_score.isSome = true

/-- Prose payload whose wrapping text carries brackets of its own, so the
greedy first-to-last bracket span is not valid JSON even though a parseable
array substring is embedded. -/
def c1Prose : String := "x [1] y [\x7b\"a\": 2\x7d] z"

/-- Two valid articles whose sources differ only by a trailing space. -/
def c2Payload : String :=
  "[\x7b\"headline\":\"A\",\"summary\":\"s\",\"source\":\"A \",\"url\":\"http://x\"\x7d,\x7b\"headline\":\"B\",\"summary\":\"t\",\"source\":\"a\",\"url\":\"http://y\"\x7d]"

/-- A valid article followed by one whose importance_score is JSON null. -/
def c5Payload : String :=
  "[\x7b\"headline\":\"A\",\"summary\":\"s\",\"source\":\"X\",\"url\":\"http://x\"\x7d,\x7b\"headline\":\"B\",\"summary\":\"t\",\"source\":\"Y\",\"url\":\"http://y\",\"importance_score\":null\x7d]"

/-- A valid article except that publication_time is the number 5. -/
def c7Payload : String :=
  "[\x7b\"headline\":\"A\",\"summary\":\"s\",\"source\":\"X\",\"url\":\"http://x\",\"publication_time\":5\x7d]"

/-- An article with an empty headline and an out-of-range importance score. -/
def c8Payload : String :=
  "[\x7b\"headline\":\"\",\"summary\":\"s\",\"source\":\"X\",\"url\":\"http://x\",\"importance_score\":5\x7d]"

/-! ## General lemmas about the element loop -/

theorem foldlM_congr_skip {α β ε : Type} (f : β → α → Except ε β) (x : α)
    (hx : ∀ st, f st x = .ok st) (l1 l2 : List α) (st : β) :
    List.foldlM f st (l1 ++ x :: l2) = List.foldlM f st (l1 ++ l2) := by
  induction l1 generalizing st with
  | nil =>
    rw [List.nil_append, List.nil_append, List.foldlM_cons, hx st]
    rfl
  | cons a l1' ih =>
    rw [List.cons_append, List.cons_append, List.foldlM_cons, List.foldlM_cons]
    cases h : f st a with
    | error e => rfl
    | ok st1 => exact ih st1

/-! ## C3: empty batches are fatal -/

/-- C3.  For any payload parsing to an array: an empty array, or one whose
every element is rejected, makes `normalize` signal EmptyResult rather than
return an empty success, and `normalize` succeeds with a batch exactly when
the element loop survives with at least one article. -/
theorem c3_empty_batch_is_error (c : String) (now : PyDatetime) (l : List Json)
    (h : parsePhase c = some (.arr l)) :
    (l = [] → normalize c now = .error .emptyResult)
    ∧ (processArticles now l = .ok [] → normalize c now = .error .emptyResult)
    ∧ (∀ arts, normalize c now = .ok arts ↔
        (processArticles now l = .ok arts ∧ arts ≠ [])) := by
  have hn : normalize c now =
      (match processArticles now l with
       | .error e => .error (.fatal e)
       | .ok arts => if arts.isEmpty then .error .emptyResult else .ok arts) := by
    unfold normalize
    rw [h]
  refine ⟨?_, ?_, ?_⟩
  · intro hl
    subst hl
    rw [hn]
    rfl
  · intro hp
    rw [hn, hp]
    rfl
  · intro arts
    rw [hn]
    cases hq : processArticles now l with
    | error e => simp
    | ok as =>
      constructor
      · intro he
        cases as with
        | nil => exact Except.noConfusion he
        | cons a as' =>
          have harts : a :: as' = arts := Except.ok.inj he
          exact ⟨by rw [← harts], by rw [← harts]; exact List.cons_ne_nil a as'⟩
      · rintro ⟨h1, h2⟩
        have harts : as = arts := Except.ok.inj h1
        subst harts
        cases as with
        | nil => exact absurd rfl h2
        | cons a as' => rfl

/-- Witness for C3 at the concrete empty-array payload. -/
theorem c3_witness : normalize "[]" now0 = .error .emptyResult :=
  (c3_empty_batch_is_error "[]" now0 [] rfl).1 rfl

/-! ## C6: a missing required key skips only that element -/

/-- C6.  An element that is an object missing at least one of the required
keys is dropped with no other effect: processing the array with it inserted
anywhere equals processing the array without it, so every sibling element's
fate and order are unchanged and the batch is never aborted by it. -/
theorem c6_missing_required_key (now : PyDatetime) (l1 l2 : List Json)
    (kvs : List (String × Json))
    (h : requiredKeys.any (fun k => !jMem kvs k) = true) :
    processArticles now (l1 ++ .obj kvs :: l2) = processArticles now (l1 ++ l2) := by
  have hskip : ∀ st : LoopState, processElem now st (.obj kvs) = .ok st := by
    intro st
    simp [processElem, h]
  unfold processArticles
  rw [foldlM_congr_skip (processElem now) (.obj kvs) hskip l1 l2]

/-- Witness for C6: an element lacking source and url is dropped while its
valid sibling is kept. -/
theorem c6_witness :
    processArticles now0
      [.obj [("headline", .str "B"), ("summary", .str "s")],
       .obj [("headline", .str "A"), ("summary", .str "s"),
             ("source", .str "X"), ("url", .str "http://x")]] =
    processArticles now0
      [.obj [("headline", .str "A"), ("summary", .str "s"),
             ("source", .str "X"), ("url", .str "http://x")]] :=
  c6_missing_required_key now0 []
    [.obj [("headline", .str "A"), ("summary", .str "s"),
           ("source", .str "X"), ("url", .str "http://x")]]
    [("headline", .str "B"), ("summary", .str "s")] (by decide)

/-! ## C9: a failed refresh -/

/-- Counterexample to C9 as stated: with a previously stored batch present,
a failed refresh returns the empty list, not the stored batch. -/
theorem c9_failure_counterexample :
    (fetch_news ⟨some 0, [sampleArticle]⟩ 400 (.error ())).1 = []
    ∧ ([] : List NewsArticle) ≠ [sampleArticle] :=
  ⟨rfl, by simp⟩

/-- C9 (amended).  A failed refresh leaves the agent state unchanged and
returns the empty batch (not the previously stored one); a successful
refresh installs the new batch and timestamp and returns it; in either case
the caller receives a value, never a propagated exception. -/
theorem c9_refresh_failure_amended (a : AgentState) (now : Int) :
    fetch_news a now (.error ()) = ([], a)
    ∧ ∀ arts, fetch_news a now (.ok arts) = (arts, ⟨some now, arts⟩) :=
  ⟨rfl, fun _ => rfl⟩

/-! ## C4: the freshness window of the aggregate endpoint -/

/-- Counterexample to C4 as stated: with a batch installed at t0 = 0 and the
five-minute window W = 300s, the query at exactly t0+W triggers zero remote
invocations (the staleness test is strict `>`) and is served the empty list,
not the stored batch, because the cached-only read uses strict `<`. -/
theorem c4_boundary_counterexample :
    (get_all_news ⟨fun _ => ⟨some 0, [sampleArticle]⟩, some 0⟩ 300
      (fun _ => .ok [sampleArticle])).2.2 Category.breaking = 0
    ∧ (get_all_news ⟨fun _ => ⟨some 0, [sampleArticle]⟩, some 0⟩ 300
      (fun _ => .ok [sampleArticle])).1 Category.breaking = []
    ∧ ([] : List NewsArticle) ≠ [sampleArticle] :=
  ⟨rfl, rfl, by simp⟩

/-- C4 (amended).  After a successful sweep at t0, a `/news/all` query at
t < t0+W is served each category's stored batch unchanged with zero remote
invocations; a query at exactly t = t0+W still performs zero invocations but
is served empty lists; and the first query at t > t0+W runs the refresh
sweep, invoking each category's remote fetch exactly once. -/
theorem c4_freshness_amended (t0 t : Int)
    (batches : Category → List NewsArticle)
    (rs : Category → Except Unit (List NewsArticle)) :
    (t - t0 < freshnessWindow →
      get_all_news ⟨fun c => ⟨some t0, batches c⟩, some t0⟩ t rs =
        (batches, ⟨fun c => ⟨some t0, batches c⟩, some t0⟩, fun _ => 0))
    ∧ (t - t0 = freshnessWindow →
      get_all_news ⟨fun c => ⟨some t0, batches c⟩, some t0⟩ t rs =
        ((fun _ => []), ⟨fun c => ⟨some t0, batches c⟩, some t0⟩, fun _ => 0))
    ∧ (freshnessWindow < t - t0 →
      get_all_news ⟨fun c => ⟨some t0, batches c⟩, some t0⟩ t rs =
        update_all ⟨fun c => ⟨some t0, batches c⟩, some t0⟩ t rs
      ∧ (get_all_news ⟨fun c => ⟨some t0, batches c⟩, some t0⟩ t rs).2.2 =
          fun _ => 1) := by
  refine ⟨?_, ?_, ?_⟩
  · intro h
    have hnu : needs_update ⟨fun c => ⟨some t0, batches c⟩, some t0⟩ t = false := by
      simp only [needs_update, decide_eq_false_iff_not]
      omega
    have hc : get_cached_news ⟨fun c => ⟨some t0, batches c⟩, some t0⟩ t = batches := by
      funext c
      simp [get_cached_news, get_cached_articles, h]
    simp only [get_all_news, hnu, Bool.false_eq_true, if_false, hc]
  · intro h
    have hnu : needs_update ⟨fun c => ⟨some t0, batches c⟩, some t0⟩ t = false := by
      simp only [needs_update, decide_eq_false_iff_not]
      omega
    have hc : get_cached_news ⟨fun c => ⟨some t0, batches c⟩, some t0⟩ t =
        fun _ => [] := by
      funext c
      simp only [get_cached_news, get_cached_articles]
      rw [if_neg (by omega)]
    simp only [get_all_news, hnu, Bool.false_eq_true, if_false, hc]
  · intro h
    have hnu : needs_update ⟨fun c => ⟨some t0, batches c⟩, some t0⟩ t = true := by
      simp only [needs_update, decide_eq_true_eq]
      omega
    constructor
    · simp only [get_all_news, hnu, if_true]
    · simp only [get_all_news, hnu, if_true, update_all]

/-- Witness for C4 at t0 = 0, t = 100: the cached batch is served with zero
remote invocations. -/
theorem c4_witness :
    get_all_news ⟨fun _ => ⟨some 0, [sampleArticle]⟩, some 0⟩ 100
      (fun _ => .error ()) =
    ((fun _ => [sampleArticle]), ⟨fun _ => ⟨some 0, [sampleArticle]⟩, some 0⟩,
      fun _ => 0) :=
  (c4_freshness_amended 0 100 (fun _ => [sampleArticle])
    (fun _ => .error ())).1 (by decide)

/-! ## C1: the two-phase parse and the greedy extraction -/

theorem firstOpenIdx_append_of_notMem (pre rest : List Char) (h : '[' ∉ pre) :
    firstOpenIdx (pre ++ rest) = (firstOpenIdx rest).map (· + pre.length) := by
  induction pre with
  | nil =>
    rw [List.nil_append]
    cases firstOpenIdx rest <;> simp
  | cons c cs ih =>
    have hc : ¬ (c = '[') := fun hc => h (hc ▸ List.mem_cons_self c cs)
    have ht : '[' ∉ cs := fun hm => h (List.mem_cons_of_mem c hm)
    rw [List.cons_append]
    simp only [firstOpenIdx, if_neg hc, ih ht]
    cases firstOpenIdx rest with
    | none => rfl
    | some j =>
      show some (j + cs.length + 1) = some (j + (cs.length + 1))
      exact congrArg some (by omega)

theorem lastCloseIdx_append_some (pre rest : List Char) (j : Nat)
    (h : lastCloseIdx rest = some j) :
    lastCloseIdx (pre ++ rest) = some (pre.length + j) := by
  induction pre with
  | nil => simpa using h
  | cons c cs ih =>
    rw [List.cons_append]
    simp only [lastCloseIdx, ih]
    show some (cs.length + j + 1) = some (cs.length + 1 + j)
    exact congrArg some (by omega)

theorem lastCloseIdx_append_none (pre rest : List Char)
    (h : lastCloseIdx rest = none) :
    lastCloseIdx (pre ++ rest) = lastCloseIdx pre := by
  induction pre with
  | nil => simpa using h
  | cons c cs ih =>
    rw [List.cons_append]
    simp only [lastCloseIdx, ih]

theorem lastCloseIdx_none_of_notMem (cs : List Char) (h : ']' ∉ cs) :
    lastCloseIdx cs = none := by
  induction cs with
  | nil => rfl
  | cons c cs' ih =>
    have hc : ¬ (c = ']') := fun hc => h (hc ▸ List.mem_cons_self c cs')
    have ht : ']' ∉ cs' := fun hm => h (List.mem_cons_of_mem c hm)
    simp only [lastCloseIdx, ih ht, if_neg hc]

/-- When the wrapping prose holds no `[` before the array and no `]` after
it, the greedy first-to-last bracket span is exactly the embedded array. -/
theorem extractSpan_embedded (pre mid post : List Char)
    (hpre : '[' ∉ pre) (hpost : ']' ∉ post) :
    extractSpan (pre ++ ('[' :: mid ++ [']']) ++ post) =
      some ('[' :: mid ++ [']']) := by
  rw [List.append_assoc]
  have h1 : firstOpenIdx (pre ++ (('[' :: mid ++ [']']) ++ post)) =
      some pre.length := by
    rw [firstOpenIdx_append_of_notMem pre _ hpre]
    simp [firstOpenIdx]
  have h2 : lastCloseIdx (pre ++ (('[' :: mid ++ [']']) ++ post)) =
      some (pre.length + (mid.length + 1)) := by
    have hb : lastCloseIdx ('[' :: mid ++ [']']) = some (mid.length + 1) := by
      have := lastCloseIdx_append_some ('[' :: mid) [']'] 0 rfl
      simpa using this
    have hbp : lastCloseIdx (('[' :: mid ++ [']']) ++ post) =
        some (mid.length + 1) := by
      rw [lastCloseIdx_append_none _ post (lastCloseIdx_none_of_notMem post hpost)]
      exact hb
    exact lastCloseIdx_append_some pre _ _ hbp
  unfold extractSpan
  rw [h1, h2]
  show (if pre.length < pre.length + (mid.length + 1) then
      some (((pre ++ (('[' :: mid ++ [']']) ++ post)).drop pre.length).take
        (pre.length + (mid.length + 1) - pre.length + 1))
    else none) = some ('[' :: mid ++ [']'])
  rw [if_pos (by omega)]
  have hdrop : (pre ++ (('[' :: mid ++ [']']) ++ post)).drop pre.length =
      ('[' :: mid ++ [']']) ++ post := by
    rw [List.drop_left]
  rw [hdrop]
  have hlen : pre.length + (mid.length + 1) - pre.length + 1 =
      ('[' :: mid ++ [']']).length := by
    simp
  rw [hlen, List.take_left]

/-- C1 (amended).  `get_top_news` first tries `json.loads` on the whole
payload; exactly when that fails it parses the greedy first-`[`-to-last-`]`
span; when both phases fail the call raises the MalformedPayload-style
error; and a prose payload embedding a JSON array is successfully recovered
by the second phase provided the wrapping prose contributes no `[` before
the array and no `]` after it (with stray brackets in the prose the greedy
span need not parse, see the counterexample). -/
theorem c1_two_phase_parse :
    (∀ c v, jsonParse c = some v → parsePhase c = some v)
    ∧ (∀ c, jsonParse c = none →
        parsePhase c = (extractSpan c.toList).bind (fun t => jsonParse (String.mk t)))
    ∧ (∀ c now, parsePhase c = none → normalize c now = .error .malformedPayload)
    ∧ (∀ pre mid post, '[' ∉ pre → ']' ∉ post →
        jsonParse (String.mk (pre ++ ('[' :: mid ++ [']']) ++ post)) = none →
        parsePhase (String.mk (pre ++ ('[' :: mid ++ [']']) ++ post)) =
          jsonParse (String.mk ('[' :: mid ++ [']']))) := by
  refine ⟨?_, ?_, ?_, ?_⟩
  · intro c v h
    unfold parsePhase
    rw [h]
  · intro c h
    unfold parsePhase
    rw [h]
    cases extractSpan c.toList <;> rfl
  · intro c now h
    unfold normalize
    rw [h]
  · intro pre mid post hpre hpost h
    unfold parsePhase
    rw [h]
    have ht : (String.mk (pre ++ ('[' :: mid ++ [']']) ++ post)).toList =
        pre ++ ('[' :: mid ++ [']']) ++ post := rfl
    rw [ht, extractSpan_embedded pre mid post hpre hpost]

/-- Counterexample to C1's universal prose clause: this payload embeds the
parseable JSON array substring of objects shown, yet both phases fail and
normalization reports MalformedPayload, because the prose's own brackets
widen the greedy span into non-JSON. -/
theorem c1_prose_counterexample :
    jsonParse "[\x7b\"a\": 2\x7d]" = some (.arr [.obj [("a", .num ⟨2, 0⟩)]])
    ∧ containsSub "[\x7b\"a\": 2\x7d]".toList c1Prose.toList = true
    ∧ parsePhase c1Prose = none
    ∧ normalize c1Prose now0 = .error .malformedPayload :=
  ⟨rfl, by decide, rfl, rfl⟩

/-- Witness for C1: a prose-wrapped array with bracket-free wrapping is
recovered by the extraction phase. -/
theorem c1_witness :
    parsePhase (String.mk ("Here: ".toList ++ ('[' :: "1, 2".toList ++ [']']) ++
      " ok".toList)) = jsonParse (String.mk ('[' :: "1, 2".toList ++ [']'])) :=
  c1_two_phase_parse.2.2.2 "Here: ".toList "1, 2".toList " ok".toList
    (by decide) (by decide) (by rfl)

/-! ## Lemmas about article construction -/

@[simp] theorem ok_bind {ε α β : Type} (a : α) (f : α → Except ε β) :
    (Except.ok a : Except ε α) >>= f = f a := rfl

@[simp] theorem error_bind {ε α β : Type} (e : ε) (f : α → Except ε β) :
    (Except.error e : Except ε α) >>= f = Except.error e := rfl

theorem validate_source_ok (v w : String) (h : validate_source v = some w) :
    w = v ∧ v ≠ "" := by
  unfold validate_source at h
  by_cases hv : v = ""
  · rw [if_pos hv] at h
    exact absurd h (by simp)
  · rw [if_neg hv] at h
    by_cases hr : sourceIsReputable v = true
    · rw [if_pos hr] at h
      exact ⟨(Option.some.inj h).symm, hv⟩
    · rw [if_neg hr] at h
      exact ⟨(Option.some.inj h).symm, hv⟩

theorem validate_url_ok (v w : String) (h : validate_url v = some w) :
    w = v ∧ (startsWithPy v "http://" || startsWithPy v "https://") = true := by
  unfold validate_url at h
  by_cases hv : v = ""
  · rw [if_pos hv] at h
    exact absurd h (by simp)
  · rw [if_neg hv] at h
    by_cases hs : (startsWithPy v "http://" || startsWithPy v "https://") = true
    · rw [if_pos hs] at h
      exact ⟨(Option.some.inj h).symm, hs⟩
    · rw [if_neg hs] at h
      exact absurd h (by simp)

theorem mkNewsArticle_ok (j1 j2 js ju : Json) (pub : PyDatetime) (cat : Json)
    (imp sen : JNum) (why : Json) (a : NewsArticle)
    (h : mkNewsArticle j1 j2 js ju pub cat imp sen why = some a) :
    a.published_at = pub ∧ a.importance_score = some imp
    ∧ a.sentiment_score = some sen ∧ a.source ≠ ""
    ∧ (startsWithPy a.url "http://" || startsWithPy a.url "https://") = true := by
  unfold mkNewsArticle at h
  cases ht : coerceStr j1 with
  | none => simp [ht] at h
  | some t =>
  cases hsm : coerceStr j2 with
  | none => simp [ht, hsm] at h
  | some sm =>
  cases hsv : coerceStr js with
  | none => simp [ht, hsm, hsv] at h
  | some sv =>
  cases hvs : validate_source sv with
  | none => simp [ht, hsm, hsv, hvs] at h
  | some s =>
  cases huv : coerceStr ju with
  | none => simp [ht, hsm, hsv, hvs, huv] at h
  | some uv =>
  cases hvu : validate_url uv with
  | none => simp [ht, hsm, hsv, hvs, huv, hvu] at h
  | some u =>
  cases hc : coerceOptStr cat with
  | none => simp [ht, hsm, hsv, hvs, huv, hvu, hc] at h
  | some copt =>
  cases hw : coerceOptStr why with
  | none => simp [ht, hsm, hsv, hvs, huv, hvu, hc, hw] at h
  | some wopt =>
  simp [ht, hsm, hsv, hvs, huv, hvu, hc, hw] at h
  obtain ⟨hseq, hsne⟩ := validate_source_ok sv s hvs
  obtain ⟨hueq, hust⟩ := validate_url_ok uv u hvu
  subst h
  refine ⟨rfl, rfl, rfl, ?_, ?_⟩
  · show s ≠ ""
    rw [hseq]
    exact hsne
  · show (startsWithPy u "http://" || startsWithPy u "https://") = true
    rw [hueq]
    exact hust

theorem pub_aware (now : PyDatetime) (v : Option Json) (d : PyDatetime)
    (hnow : now.tz.isSome = true) (h : computePublishedAt v now = .ok d) :
    d.tz.isSome = true := by
  cases v with
  | none =>
    rw [← Except.ok.inj h]
    exact hnow
  | some j =>
    by_cases htr : jsonTruthy j = true
    · cases j with
      | str s =>
        cases hf : fromisoformat s with
        | none =>
          simp [computePublishedAt, htr, hf] at h
          rw [← h]
          exact hnow
        | some d' =>
          simp [computePublishedAt, htr, hf] at h
          rw [← h]
          cases htz : d'.tz with
          | none => simp [htz]
          | some z => simp [htz]
      | null => exact absurd htr (by decide)
      | bool b => simp [computePublishedAt, htr] at h
      | num q => simp [computePublishedAt, htr] at h
      | arr l => simp [computePublishedAt, htr] at h
      | obj l => simp [computePublishedAt, htr] at h
    · simp [computePublishedAt, htr] at h
      rw [← h]
      exact hnow

/-! ## C7: publication-time handling -/

/-- Counterexample to C7 as stated: an element whose publication_time is the
number 5 (truthy, non-string) makes `datetime.fromisoformat` raise a
TypeError that the loop does not catch, so the whole call fails — the claim
said a bad publication-time value never rejects nor fails the call. -/
theorem c7_nonstring_time_counterexample :
    parsePhase c7Payload = some (.arr
      [.obj [("headline", .str "A"), ("summary", .str "s"),
             ("source", .str "X"), ("url", .str "http://x"),
             ("publication_time", .num ⟨5, 0⟩)]])
    ∧ normalize c7Payload now0 = .error (.fatal .typeError) :=
  ⟨rfl, rfl⟩

/-- C7 (amended).  Publication-time handling: an absent or falsy value is
replaced by the current utc time; a truthy string is ISO-parsed, with a
failed parse falling back to the current utc time and a timezone-naive
result assigned utc; the produced timestamp is always timezone-aware when
the clock is; but a truthy non-string value raises an uncaught TypeError
that aborts the whole call. -/
theorem c7_publication_time_amended :
    (∀ now : PyDatetime, computePublishedAt none now = .ok now)
    ∧ (∀ now j, jsonTruthy j = false → computePublishedAt (some j) now = .ok now)
    ∧ (∀ now s, jsonTruthy (.str s) = true → fromisoformat s = none →
        computePublishedAt (some (.str s)) now = .ok now)
    ∧ (∀ now s d, jsonTruthy (.str s) = true → fromisoformat s = some d →
        computePublishedAt (some (.str s)) now =
          .ok (if d.tz.isNone then { d with tz := some 0 } else d))
    ∧ (∀ now j, jsonTruthy j = true → (∀ s, j ≠ .str s) →
        computePublishedAt (some j) now = .error .typeError)
    ∧ (∀ now v d, now.tz.isSome = true →
        computePublishedAt v now = .ok d → d.tz.isSome = true) := by
  refine ⟨fun now => rfl, ?_, ?_, ?_, ?_, ?_⟩
  · intro now j h
    simp [computePublishedAt, h]
  · intro now s h1 h2
    simp [computePublishedAt, h1, h2]
  · intro now s d h1 h2
    simp [computePublishedAt, h1, h2]
  · intro now j h1 hns
    cases j with
    | str s => exact absurd rfl (hns s)
    | null => exact absurd h1 (by decide)
    | bool b => simp [computePublishedAt, h1]
    | num q => simp [computePublishedAt, h1]
    | arr l => simp [computePublishedAt, h1]
    | obj l => simp [computePublishedAt, h1]
  · exact pub_aware

/-- Witness for C7: a naive ISO timestamp parses and is assigned utc. -/
theorem c7_witness :
    computePublishedAt (some (.str "2024-01-15T10:30:00")) now0 =
      .ok ⟨2024, 1, 15, 10, 30, 0, 0, some 0⟩ :=
  c7_publication_time_amended.2.2.2.1 now0 "2024-01-15T10:30:00"
    ⟨2024, 1, 15, 10, 30, 0, 0, none⟩ (by decide) (by rfl)

/-! ## C5: score coercion -/

/-- Counterexample to C5 as stated: a payload whose second element carries
`"importance_score": null` makes `float(None)` raise a TypeError that the
per-article try/except (which only catches ValueError) does not stop, so the
whole call fails instead of rejecting just that element. -/
theorem c5_null_score_counterexample :
    parsePhase c5Payload = some (.arr
      [.obj [("headline", .str "A"), ("summary", .str "s"),
             ("source", .str "X"), ("url", .str "http://x")],
       .obj [("headline", .str "B"), ("summary", .str "t"),
             ("source", .str "Y"), ("url", .str "http://y"),
             ("importance_score", .null)]])
    ∧ normalize c5Payload now0 = .error (.fatal .typeError) :=
  ⟨rfl, rfl⟩

/-- C5 (amended).  importance_score and sentiment_score default to 0.5 and
0.0 when the keys are absent; a present string value that does not parse as
a float raises a ValueError that rejects only that element (processing
continues, non-fatally); but a present value of a non-number non-string type
(null, array, object) raises an uncaught TypeError that fails the whole
call. -/
theorem c5_score_coercion_amended :
    (JNum.toRat ⟨5, -1⟩ = 1 / 2 ∧ JNum.toRat ⟨0, 0⟩ = 0)
    ∧ (∀ now kvs a, jGet kvs "importance_score" = none →
        jGet kvs "sentiment_score" = none →
        elemBuild now kvs = .ok (some a) →
        a.importance_score = some ⟨5, -1⟩ ∧ a.sentiment_score = some ⟨0, 0⟩)
    ∧ (∀ now kvs s pub, jGet kvs "importance_score" = some (.str s) →
        pyFloatParse s = none →
        computePublishedAt (jGet kvs "publication_time") now = .ok pub →
        elemBuild now kvs = .ok none)
    ∧ (∀ now kvs s q pub, jGet kvs "sentiment_score" = some (.str s) →
        pyFloatParse s = none →
        pyFloat (jGetD kvs "importance_score" (.num ⟨5, -1⟩)) = .ok q →
        computePublishedAt (jGet kvs "publication_time") now = .ok pub →
        elemBuild now kvs = .ok none)
    ∧ (∀ now kvs j pub, jGet kvs "importance_score" = some j →
        pyFloat j = .error .typeError →
        computePublishedAt (jGet kvs "publication_time") now = .ok pub →
        elemBuild now kvs = .error .typeError)
    ∧ (∀ now st kvs s, requiredKeys.any (fun k => !jMem kvs k) = false →
        jGetD kvs "source" (.str "") = .str s →
        lowerStr s ∉ st.seen →
        elemBuild now kvs = .ok none →
        processElem now st (.obj kvs) = .ok ⟨st.seen ++ [lowerStr s], st.out⟩) := by
  refine ⟨⟨?_, ?_⟩, ?_, ?_, ?_, ?_, ?_⟩
  · norm_num [JNum.toRat, ratPow10]
  · norm_num [JNum.toRat, ratPow10]
  · intro now kvs a h1 h2 h3
    cases hp : computePublishedAt (jGet kvs "publication_time") now with
    | error e => simp [elemBuild, hp] at h3
    | ok pub =>
      simp [elemBuild, hp, jGetD, h1, h2, pyFloat] at h3
      obtain ⟨-, hi, hs2, -, -⟩ :=
        mkNewsArticle_ok _ _ _ _ _ _ _ _ _ a h3
      exact ⟨hi, hs2⟩
  · intro now kvs s pub h1 h2 hp
    simp [elemBuild, hp, jGetD, h1, pyFloat, h2]
  · intro now kvs s q pub h1 h2 himp hp
    simp only [elemBuild, hp, ok_bind]
    rw [himp]
    simp [jGetD, h1, pyFloat, h2]
  · intro now kvs j pub h1 h2 hp
    simp [elemBuild, hp, jGetD, h1, h2]
  · intro now st kvs s hmiss hsrc hk hbuild
    simp [processElem, hmiss, hsrc, hk, hbuild]

/-- Witness for C5: an unparsable importance_score string rejects just that
element, non-fatally. -/
theorem c5_witness :
    elemBuild now0 [("headline", .str "A"), ("summary", .str "s"),
      ("source", .str "X"), ("url", .str "http://x"),
      ("importance_score", .str "abc")] = .ok none :=
  c5_score_coercion_amended.2.2.1 now0
    [("headline", .str "A"), ("summary", .str "s"),
     ("source", .str "X"), ("url", .str "http://x"),
     ("importance_score", .str "abc")] "abc" now0 rfl rfl rfl

/-! ## C2: source deduplication -/

theorem processElem_elemOk (now : PyDatetime) (st : LoopState) (e : Json)
    (k : String) (a : NewsArticle) (h : elemOk now e = some (k, a))
    (hk : k ∉ st.seen) :
    processElem now st e = .ok ⟨st.seen ++ [k], st.out ++ [a]⟩ := by
  cases e with
  | obj kvs =>
    by_cases hmiss : (requiredKeys.any fun kk => !jMem kvs kk) = true
    · simp [elemOk, hmiss] at h
    · cases hsrc : jGetD kvs "source" (.str "") with
      | str s =>
        cases hb : elemBuild now kvs with
        | error e' => simp [elemOk, hmiss, hsrc, hb] at h
        | ok o =>
          cases o with
          | none => simp [elemOk, hmiss, hsrc, hb] at h
          | some a' =>
            simp [elemOk, hmiss, hsrc, hb] at h
            obtain ⟨hkey, ha⟩ := h
            simp [processElem, hmiss, hsrc, hb, hkey, ha, hk]
      | null => simp [elemOk, hmiss, hsrc] at h
      | bool b => simp [elemOk, hmiss, hsrc] at h
      | num q => simp [elemOk, hmiss, hsrc] at h
      | arr l => simp [elemOk, hmiss, hsrc] at h
      | obj l => simp [elemOk, hmiss, hsrc] at h
  | null => simp [elemOk] at h
  | bool b => simp [elemOk] at h
  | num q => simp [elemOk] at h
  | str s => simp [elemOk] at h
  | arr l => simp [elemOk] at h

theorem processFold_elemOk (now : PyDatetime) (l : List Json)
    (ps : List (String × NewsArticle)) (st : LoopState)
    (h : l.map (elemOk now) = ps.map some)
    (hd : (ps.map Prod.fst).Nodup)
    (hfresh : ∀ p ∈ ps, p.1 ∉ st.seen) :
    List.foldlM (processElem now) st l =
      .ok ⟨st.seen ++ ps.map Prod.fst, st.out ++ ps.map Prod.snd⟩ := by
  induction l generalizing ps st with
  | nil =>
    cases ps with
    | nil =>
      simp [List.foldlM_nil]
      rfl
    | cons p ps' => simp at h
  | cons e l' ih =>
    cases ps with
    | nil => simp at h
    | cons p ps' =>
      rw [List.map_cons, List.map_cons] at h
      injection h with h1 h2
      have hp1 : p.1 ∉ st.seen := hfresh p (List.mem_cons_self p ps')
      rw [List.map_cons] at hd
      have hnd := List.nodup_cons.mp hd
      have hfresh' : ∀ p' ∈ ps', p'.1 ∉ st.seen ++ [p.1] := by
        intro p' hp'
        simp only [List.mem_append, List.mem_singleton]
        rintro (hin | heq)
        · exact hfresh p' (List.mem_cons_of_mem p hp') hin
        · exact hnd.1 (heq ▸ List.mem_map_of_mem Prod.fst hp')
      rw [List.foldlM_cons, processElem_elemOk now st e p.1 p.2 h1 hp1]
      simp only [ok_bind]
      rw [ih ps' ⟨st.seen ++ [p.1], st.out ++ [p.2]⟩ h2 hnd.2 hfresh']
      simp

/-- Counterexample to C2 as stated: the two sources "A " and "a" share the
trimmed-and-lowercased key the claim prescribes, yet the code keeps both
articles because its key is lowercased only, never trimmed. -/
theorem c2_trim_counterexample :
    specNormalizedSourceKey "A " = specNormalizedSourceKey "a"
    ∧ normalize c2Payload now0 = .ok
      [⟨"A", "s", "A ", "http://x", now0, some "General",
        some ⟨5, -1⟩, some ⟨0, 0⟩, some "Analysis not available"⟩,
       ⟨"B", "t", "a", "http://y", now0, some "General",
        some ⟨5, -1⟩, some ⟨0, 0⟩, some "Analysis not available"⟩] :=
  ⟨rfl, rfl⟩

/-- C2 (amended).  The dedup key is the lowercased (not trimmed) source
string; an element that reaches the duplicate check is rejected by it, with
no other effect, exactly when its key is already in the seen set (which
records every earlier element that reached the check, even ones that later
failed validation); and for arrays whose elements all pass validation with
pairwise-distinct keys, every element survives in encounter order. -/
theorem c2_source_dedup_amended :
    (∀ now (st : LoopState) kvs s,
        requiredKeys.any (fun k => !jMem kvs k) = false →
        jGetD kvs "source" (.str "") = .str s →
        lowerStr s ∈ st.seen →
        processElem now st (.obj kvs) = .ok st)
    ∧ (∀ now (st : LoopState) kvs s,
        requiredKeys.any (fun k => !jMem kvs k) = false →
        jGetD kvs "source" (.str "") = .str s →
        lowerStr s ∉ st.seen →
        (∃ e, processElem now st (.obj kvs) = .error e)
        ∨ ∃ st', processElem now st (.obj kvs) = .ok st'
            ∧ st'.seen = st.seen ++ [lowerStr s])
    ∧ (∀ now (l : List Json) (ps : List (String × NewsArticle)),
        l.map (elemOk now) = ps.map some →
        (ps.map Prod.fst).Nodup →
        processArticles now l = .ok (ps.map Prod.snd)) := by
  refine ⟨?_, ?_, ?_⟩
  · intro now st kvs s hmiss hsrc hmem
    simp [processElem, hmiss, hsrc, hmem]
  · intro now st kvs s hmiss hsrc hmem
    cases hb : elemBuild now kvs with
    | error e =>
      exact Or.inl ⟨e, by simp [processElem, hmiss, hsrc, hmem, hb]⟩
    | ok o =>
      cases o with
      | none =>
        exact Or.inr ⟨⟨st.seen ++ [lowerStr s], st.out⟩,
          by simp [processElem, hmiss, hsrc, hmem, hb], rfl⟩
      | some a =>
        exact Or.inr ⟨⟨st.seen ++ [lowerStr s], st.out ++ [a]⟩,
          by simp [processElem, hmiss, hsrc, hmem, hb], rfl⟩
  · intro now l ps h hd
    unfold processArticles
    rw [processFold_elemOk now l ps ⟨[], []⟩ h hd (by intro p hp; simp)]
    rfl

/-- Witness for C2: a valid element whose lowercased source is already seen
is skipped with the state unchanged. -/
theorem c2_witness :
    processElem now0 ⟨["x"], []⟩
      (.obj [("headline", .str "A"), ("summary", .str "s"),
             ("source", .str "X"), ("url", .str "http://x")]) =
    .ok ⟨["x"], []⟩ :=
  c2_source_dedup_amended.1 now0 ⟨["x"], []⟩
    [("headline", .str "A"), ("summary", .str "s"),
     ("source", .str "X"), ("url", .str "http://x")] "X"
    (by rfl) (by rfl) (by decide)

/-! ## C8: batch field invariants -/

theorem url_scheme_ne_empty (u : String)
    (h : (startsWithPy u "http://" || startsWithPy u "https://") = true) :
    u ≠ "" := by
  intro he
  subst he
  revert h
  decide

theorem elemBuild_good (now : PyDatetime) (kvs : List (String × Json))
    (a : NewsArticle) (hnow : now.tz.isSome = true)
    (h : elemBuild now kvs = .ok (some a)) : articleInv a := by
  cases hp : computePublishedAt (jGet kvs "publication_time") now with
  | error e => simp [elemBuild, hp] at h
  | ok pub =>
    simp only [elemBuild, hp, ok_bind] at h
    cases hi : pyFloat (jGetD kvs "importance_score" (.num ⟨5, -1⟩)) with
    | error se => cases se <;> simp [hi] at h
    | ok imp =>
      cases hs : pyFloat (jGetD kvs "sentiment_score" (.num ⟨0, 0⟩)) with
      | error se => cases se <;> simp [hi, hs] at h
      | ok sen =>
        simp only [hi, hs] at h
        have hmk : mkNewsArticle (jGetD kvs "headline" (.str "No Title"))
            (jGetD kvs "summary" (.str "No Summary"))
            (jGetD kvs "source" (.str "")) (jGetD kvs "url" (.str ""))
            pub (jGetD kvs "category" (.str "General")) imp sen
            (jGetD kvs "why_it_matters" (.str "Analysis not available")) =
            some a := Except.ok.inj h
        obtain ⟨hpub, himp, hsen, hsrc, hurl⟩ :=
          mkNewsArticle_ok _ _ _ _ _ _ _ _ _ a hmk
        refine ⟨hsrc, url_scheme_ne_empty a.url hurl, hurl, ?_, ?_, ?_⟩
        · rw [hpub]
          exact pub_aware now _ pub hnow hp
        · rw [himp]
          rfl
        · rw [hsen]
          rfl

theorem processElem_out (now : PyDatetime) (st : LoopState) (e : Json)
    (st' : LoopState) (h : processElem now st e = .ok st') :
    st'.out = st.out
    ∨ ∃ kvs a, e = .obj kvs ∧ elemBuild now kvs = .ok (some a)
        ∧ st'.out = st.out ++ [a] := by
  cases e with
  | obj kvs =>
    by_cases hmiss : (requiredKeys.any fun kk => !jMem kvs kk) = true
    · left
      simp [processElem, hmiss] at h
      rw [← h]
    · cases hsrc : jGetD kvs "source" (.str "") with
      | str s =>
        by_cases hmem : lowerStr s ∈ st.seen
        · left
          simp [processElem, hmiss, hsrc, hmem] at h
          rw [← h]
        · cases hb : elemBuild now kvs with
          | error e' => simp [processElem, hmiss, hsrc, hmem, hb] at h
          | ok o =>
            cases o with
            | none =>
              left
              simp [processElem, hmiss, hsrc, hmem, hb] at h
              rw [← h]
            | some a =>
              right
              simp [processElem, hmiss, hsrc, hmem, hb] at h
              exact ⟨kvs, a, rfl, hb, by rw [← h]⟩
      | null => simp [processElem, hmiss, hsrc] at h
      | bool b => simp [processElem, hmiss, hsrc] at h
      | num q => simp [processElem, hmiss, hsrc] at h
      | arr l => simp [processElem, hmiss, hsrc] at h
      | obj l => simp [processElem, hmiss, hsrc] at h
  | null =>
    left
    simp [processElem] at h
    rw [← h]
  | bool b =>
    left
    simp [processElem] at h
    rw [← h]
  | num q =>
    left
    simp [processElem] at h
    rw [← h]
  | str s =>
    left
    simp [processElem] at h
    rw [← h]
  | arr l =>
    left
    simp [processElem] at h
    rw [← h]

theorem processFold_inv (now : PyDatetime) (hnow : now.tz.isSome = true) :
    ∀ (l : List Json) (st st' : LoopState),
    (∀ a ∈ st.out, articleInv a) →
    List.foldlM (processElem now) st l = .ok st' →
    ∀ a ∈ st'.out, articleInv a := by
  intro l
  induction l with
  | nil =>
    intro st st' hinv h
    rw [List.foldlM_nil] at h
    rw [← Except.ok.inj h]
    exact hinv
  | cons e l' ih =>
    intro st st' hinv h
    rw [List.foldlM_cons] at h
    cases h1 : processElem now st e with
    | error e' =>
      rw [h1] at h
      exact absurd h (by simp)
    | ok st1 =>
      rw [h1] at h
      simp only [ok_bind] at h
      refine ih st1 st' ?_ h
      rcases processElem_out now st e st1 h1 with hsame | ⟨kvs, b, -, hb, hout⟩
      · rw [hsame]
        exact hinv
      · rw [hout]
        intro a ha
        rcases List.mem_append.mp ha with hm | hm
        · exact hinv a hm
        · rw [List.mem_singleton.mp hm]
          exact elemBuild_good now kvs b hnow hb

/-- Counterexample to C8 as stated: an element with an empty headline and
importance_score 5 yields a returned batch whose article has an empty title
(no placeholder substituted, since the key is present) and an importance
score outside [0,1] (no clamping exists in the code). -/
theorem c8_unclamped_counterexample :
    normalize c8Payload now0 = .ok
      [⟨"", "s", "X", "http://x", now0, some "General",
        some ⟨5, 0⟩, some ⟨0, 0⟩, some "Analysis not available"⟩]
    ∧ ¬ (JNum.toRat ⟨5, 0⟩ ≤ 1) :=
  ⟨rfl, by norm_num [JNum.toRat, ratPow10]⟩

/-- C8 (amended).  Every article in a successfully returned batch has a
non-empty source, a non-empty url carrying an http or https scheme prefix, a
timezone-aware published_at, and both scores present.  Titles and summaries
are taken verbatim (possibly empty — the placeholder defaults are
unreachable because the keys are required) and scores are not clamped. -/
theorem c8_invariants_amended (c : String) (now : PyDatetime)
    (arts : List NewsArticle) (hnow : now.tz.isSome = true)
    (h : normalize c now = .ok arts) :
    ∀ a ∈ arts, articleInv a := by
  unfold normalize at h
  split at h
  · exact absurd h (by simp)
  · next l hl =>
    split at h
    · exact absurd h (by simp)
    · next as heq2 =>
      split at h
      · exact absurd h (by simp)
      · have has : as = arts := Except.ok.inj h
        subst has
        unfold processArticles at heq2
        cases hf : List.foldlM (processElem now) ⟨[], []⟩ l with
        | error e =>
          rw [hf] at heq2
          exact absurd heq2 (by simp [Except.map])
        | ok stf =>
          rw [hf] at heq2
          have hout : stf.out = as := by
            simpa [Except.map] using heq2
          intro a ha
          exact processFold_inv now hnow l ⟨[], []⟩ stf
            (by intro a' ha'; exact absurd ha' (by simp)) hf a (hout ▸ ha)
  · exact absurd h (by simp)

/-- Witness for C8 at a concrete successful batch. -/
theorem c8_witness :
    articleInv ⟨"A", "s", "X", "http://x", now0, some "General",
      some ⟨5, -1⟩, some ⟨0, 0⟩, some "Analysis not available"⟩ :=
  c8_invariants_amended
    "[\x7b\"headline\":\"A\",\"summary\":\"s\",\"source\":\"X\",\"url\":\"http://x\"\x7d]"
    now0
    [⟨"A", "s", "X", "http://x", now0, some "General",
      some ⟨5, -1⟩, some ⟨0, 0⟩, some "Analysis not available"⟩]
    rfl rfl _ (List.mem_singleton.mpr rfl)

/-! ## C10: the validators -/

/-- Counterexample to C10 as stated: construction can also reject for a
reason other than an empty source or a bad url — here a non-string headline
(a JSON array) fails pydantic's string coercion although source and url are
individually valid. -/
theorem c10_nonstring_counterexample :
    mkNewsArticle (.arr []) (.str "s") (.str "TechCrunch") (.str "http://x")
      now0 (.str "General") ⟨5, -1⟩ ⟨0, 0⟩ (.str "w") = none
    ∧ validate_source "TechCrunch" = some "TechCrunch"
    ∧ validate_url "http://x" = some "http://x" :=
  ⟨rfl, rfl, rfl⟩

/-- C10 (amended).  The source validator accepts exactly the non-empty
strings — the reputable-outlet check never rejects, whatever the outlet —
and the url validator accepts exactly the strings with an http:// or
https:// prefix; construction from string-typed fields fails precisely when
the source is empty or the url lacks a scheme prefix, while non-string field
values can additionally be rejected by type coercion. -/
theorem c10_validator_amended :
    (∀ v, validate_source v = some v ↔ v ≠ "")
    ∧ (∀ v, v ≠ "" → sourceIsReputable v = false → validate_source v = some v)
    ∧ (∀ v, validate_url v = some v ↔
        (startsWithPy v "http://" || startsWithPy v "https://") = true)
    ∧ (∀ (t sm sv uv cat why : String) (pub : PyDatetime) (imp sen : JNum),
        (mkNewsArticle (.str t) (.str sm) (.str sv) (.str uv) pub (.str cat)
          imp sen (.str why)).isSome = true ↔
        (sv ≠ "" ∧ (startsWithPy uv "http://" || startsWithPy uv "https://") = true)) := by
  refine ⟨?_, ?_, ?_, ?_⟩
  · intro v
    unfold validate_source
    by_cases hv : v = ""
    · simp [hv]
    · by_cases hr : sourceIsReputable v = true
      · simp [hv, hr]
      · simp [hv, hr]
  · intro v hv hr
    simp [validate_source, hv, hr]
  · intro v
    by_cases hv : v = ""
    · subst hv
      decide
    · by_cases hs : (startsWithPy v "http://" || startsWithPy v "https://") = true
      · simp [validate_url, hv, hs]
      · simp [validate_url, hv, hs]
  · intro t sm sv uv cat why pub imp sen
    by_cases hsv : sv = ""
    · simp [mkNewsArticle, coerceStr, coerceOptStr, validate_source,
        validate_url, hsv]
    · by_cases huv : uv = ""
      · subst huv
        have h1 : startsWithPy "" "http://" = false := by decide
        have h2 : startsWithPy "" "https://" = false := by decide
        simp [mkNewsArticle, coerceStr, coerceOptStr, validate_source,
          validate_url, hsv, h1, h2]
      · by_cases h1 : startsWithPy uv "http://" = true
        · simp [mkNewsArticle, coerceStr, coerceOptStr, validate_source,
            validate_url, hsv, huv, h1]
        · by_cases h2 : startsWithPy uv "https://" = true
          · simp [mkNewsArticle, coerceStr, coerceOptStr, validate_source,
              validate_url, hsv, huv, h1, h2]
          · simp [mkNewsArticle, coerceStr, coerceOptStr, validate_source,
              validate_url, hsv, huv, h1, h2]

/-- Witness for C10: a source matching no known outlet is still accepted. -/
theorem c10_witness :
    validate_source "Humor Daily" = some "Humor Daily"
    ∧ sourceIsReputable "Humor Daily" = false :=
  ⟨c10_validator_amended.2.1 "Humor Daily" (by decide) (by decide), by decide⟩

end BTF
